import Mathlib

/-!
Shallow embedding of the chat-export parser and analytics core
(source: the third parser revision in the repository, the one shipping
the single-pass temporal analytics engine).

Modelling conventions, fixed once for the whole file:
* JS timestamps (millisecond instants from the Date API) are Nat epoch
  milliseconds; the runtime timezone is fixed to UTC, so getHours is
  epoch-ms arithmetic and the calendar-day key "YYYY-MM-DD" is replaced
  by the epoch day ordinal (the two key spaces are in an order-preserving
  bijection, so lexicographic sorting of the string keys is numeric
  sorting of the ordinals).
* JS objects used as string-keyed counter maps become insertion-ordered
  association lists (a JS object iterates non-index keys in insertion
  order, and an increment of an existing key keeps its position).
* Array.prototype.sort with a comparator is a stable sort; it is
  modelled with List.insertionSort, which is stable and sorts by the
  comparator's induced relation.
* Fractional JS number arithmetic (minute gaps, day spans, Math.round,
  Math.ceil, Math.floor) is exact rational / integer arithmetic.
* The DOM tree produced by DOMParser and the Unicode emoji property of
  the RegExp engine are external library capabilities; they enter the
  embedding as an explicit environment of deterministic functions of the
  input text (strategy extraction results, node count, emoji matches).
-/

/-- Message kind as in the RawMessage type of the source. -/
inductive MsgType where
  | text
  | attachment
  | reel
deriving DecidableEq, Repr

/-- RawMessage: sender, epoch-ms timestamp, content, kind. -/
structure RawMessage where
  sender : String
  timestamp : Nat
  content : String
  type : MsgType
deriving DecidableEq, Repr

/-- Milliseconds in a minute. -/
def msPerMinute : Nat := 60000

/-- Milliseconds in an hour. -/
def msPerHour : Nat := 3600000

/-- Milliseconds in a day, the 1000*60*60*24 of the source. -/
def msPerDay : Nat := 86400000

/-- Hour of day of an epoch-ms instant (Date.prototype.getHours under UTC). -/
def hourOf (t : Nat) : Nat := t / msPerHour % 24

/-- Epoch day ordinal of an instant; stands for the "YYYY-MM-DD" day key. -/
def dayOf (t : Nat) : Nat := t / msPerDay

/-- counts[k] = (counts[k] || 0) + 1 on an insertion-ordered assoc list:
an existing key keeps its position, a new key is appended. -/
def bump {α : Type} [DecidableEq α] : List (α × Nat) → α → List (α × Nat)
  | [], k => [(k, 1)]
  | (k0, v) :: rest, k =>
      if k0 = k then (k0, v + 1) :: rest else (k0, v) :: bump rest k

/-- Sum of the values of a counter map. -/
def sumVals {α : Type} (m : List (α × Nat)) : Nat := (m.map Prod.snd).sum

/-- The character class of the JS \s used by trim and the tokenizer
(ASCII whitespace plus no-break space). -/
def jsSpaceC (c : Char) : Bool :=
  c = ' ' || c = '\t' || c = '\n' || c = '\r' ||
  c = '\x0b' || c = '\x0c' || c = '\u00A0'

/-- The JS \w character class: ASCII letters, digits and underscore. -/
def jsWordChar (c : Char) : Bool := c.isAlphanum || c = '_'

/-- String.prototype.toLowerCase, character by character (ASCII case
mapping, as Char.toLower provides). -/
def jsToLower (s : String) : String :=
  String.mk (s.toList.map Char.toLower)

/-- String.prototype.trim: drop leading and trailing whitespace. -/
def jsTrim (s : String) : String :=
  String.mk (((s.toList.dropWhile jsSpaceC).reverse.dropWhile jsSpaceC).reverse)

/-- The STOP_WORDS set of the source (the revision whose list ends with
"attachment." and "to"); the JS Set collapses the duplicated entries, and
List.contains has the same membership semantics. -/
def STOP_WORDS : List String :=
  ["the", "be", "to", "of", "and", "a", "in", "that", "have", "i", "it",
   "for", "not", "on", "with", "he", "as", "you", "do", "at", "this",
   "but", "his", "by", "from", "they", "we", "say", "her", "she", "or",
   "an", "will", "my", "one", "all", "would", "there", "their", "what",
   "so", "up", "out", "if", "about", "who", "get", "which", "go", "me",
   "when", "make", "can", "like", "time", "no", "just", "him", "know",
   "take", "people", "into", "year", "your", "good", "some", "could",
   "them", "see", "other", "than", "then", "now", "look", "only", "come",
   "its", "over", "think", "also", "back", "after", "use", "two", "how",
   "our", "work", "first", "well", "way", "even", "new", "want",
   "because", "any", "these", "give", "day", "most", "us", "is", "are",
   "was", "were", "had", "has", "sent", "attachment", "message", "chat",
   "pm", "am", "om", "ok", "okay", "lol", "yeah", "yes", "attachment.",
   "to"]

/-- tokenizeAndCount of the source: lower-case, strip every character
that is neither a word character nor whitespace, split on whitespace
runs, and count each token of length above one that is not a stop word.
(The empty fragments a JS split on a whitespace run can produce are
filtered out here; they never pass the length check anyway.) -/
def tokenizeAndCount (text : String) (counts : List (String × Nat)) :
    List (String × Nat) :=
  let cleaned :=
    (jsToLower text).toList.filter (fun c => jsWordChar c || jsSpaceC c)
  let words := ((cleaned.splitOnP jsSpaceC).filter (fun w => !w.isEmpty)).map
    (fun w => String.mk w)
  words.foldl
    (fun m w =>
      if w.length > 1 && !(STOP_WORDS.contains w) then bump m w else m)
    counts

/-- Fold the matches of the emoji regular expression into a counter map. -/
def accumEmoji (ems : List String) (m : List (String × Nat)) :
    List (String × Nat) :=
  ems.foldl bump m

/-- Consume one character satisfying a class, as a step of a regular
expression match; returns the remainder on success. -/
def eatC (p : Char → Bool) : List Char → Option (List Char)
  | c :: rest => if p c then some rest else none
  | [] => none

/-- Consume exactly n characters of a class. -/
def eatN (p : Char → Bool) : Nat → List Char → Option (List Char)
  | 0, cs => some cs
  | n + 1, cs => (eatC p cs).bind (eatN p n)

/-- Consume one literal character. -/
def eatL (ch : Char) : List Char → Option (List Char)
  | c :: rest => if c = ch then some rest else none
  | [] => none

/-- ASCII upper-case letter, the [A-Z] class. -/
def isUpperAZ (c : Char) : Bool := 'A' ≤ c && c ≤ 'Z'

/-- ASCII lower-case letter, the [a-z] class. -/
def isLowerAZ (c : Char) : Bool := 'a' ≤ c && c ≤ 'z'

/-- Match of the anchored search of \d{1,2}:\d{2} at the start of the
string: with backtracking this succeeds on a two-digit or a one-digit
hour followed by a colon and two digits. -/
def clockStart (cs : List Char) : Bool :=
  (((eatN Char.isDigit 2 cs).bind (eatL ':')).bind (eatN Char.isDigit 2)).isSome ||
  (((eatN Char.isDigit 1 cs).bind (eatL ':')).bind (eatN Char.isDigit 2)).isSome

/-- Match of ^(AM|PM)$ with the ignore-case flag: the whole string is a
bare meridiem marker. -/
def meridiemOnly (t : String) : Bool :=
  jsToLower t = "am" || jsToLower t = "pm"

/-- Match at the start of [A-Z][a-z]{2}\s\d{1,2},?\s\d{4} (month-name
day, year): three letters, whitespace, one or two digits, an optional
comma, whitespace, four digits; the alternatives cover the
backtracking of the optional parts. -/
def longDateStart (cs : List Char) : Bool :=
  match ((eatC isUpperAZ cs).bind (eatN isLowerAZ 2)).bind (eatC jsSpaceC) with
  | none => false
  | some rest =>
      let tail2 := eatN Char.isDigit 2 rest
      let tail1 := eatN Char.isDigit 1 rest
      let closing : Option (List Char) → Bool := fun o =>
        (((o.bind (eatL ',')).bind (eatC jsSpaceC)).bind (eatN Char.isDigit 4)).isSome ||
        ((o.bind (eatC jsSpaceC)).bind (eatN Char.isDigit 4)).isSome
      closing tail2 || closing tail1

/-- Match at the start of \d{1,2}\/\d{1,2}\/\d{2,4}: a slash-delimited
numeric date; two or more trailing digits suffice for a prefix match. -/
def slashDateStart (cs : List Char) : Bool :=
  let seg : Option (List Char) → Option (List Char) := fun o =>
    match (o.bind (eatN Char.isDigit 2)).bind (eatL '/') with
    | some r => some r
    | none => (o.bind (eatN Char.isDigit 1)).bind (eatL '/')
  ((seg (seg (some cs))).bind (eatN Char.isDigit 2)).isSome

/-- The fixed commonLabels set of the validator (the revision without
the bare "you" entry). -/
def commonLabels : List String :=
  ["sent", "seen", "liked", "reacted", "reply", "replied",
   "message", "chat", "conversation", "participants",
   "search", "loading", "active", "now", "edited",
   "unsent", "forwarded", "admin",
   "you sent an attachment.", "sent an attachment.",
   "attachment", "video chat", "audio call",
   "missed voice call", "missed video call"]

/-- Whether the needle occurs at the start of the haystack. -/
def subAt : List Char → List Char → Bool
  | [], _ => true
  | _ :: _, [] => false
  | a :: as, b :: bs => a = b && subAt as bs

/-- Whether the needle occurs anywhere in the haystack (the
String.prototype.includes check). -/
def hasSub (needle : List Char) : List Char → Bool
  | [] => subAt needle []
  | b :: bs => subAt needle (b :: bs) || hasSub needle bs

/-- isValidSender of the source: trims, rejects the empty and the
over-80-character trimmed strings, clock-time starts, bare meridiem
markers, long-form and slash dates, the fixed label set (lower-cased)
and anything containing "sent an attachment" lower-cased; accepts the
rest. The checks appear in the order of the source's early returns. -/
def isValidSender (text : String) : Bool :=
  if text = "" then false
  else
    let t := jsTrim text
    if t.length = 0 || t.length > 80 then false
    else if clockStart t.toList then false
    else if meridiemOnly t then false
    else if longDateStart t.toList then false
    else if slashDateStart t.toList then false
    else if commonLabels.contains (jsToLower t) then false
    else if hasSub "sent an attachment".toList (jsToLower t).toList then
      false
    else true

/-- The per-sender mutable accumulator of the analytics pass
(TempSenderStat in the source). -/
structure TempSenderStat where
  name : String
  count : Nat
  wordCounts : List (String × Nat)
  reelCount : Nat
  attachmentCount : Nat
  totalLen : Nat
  replyTimes : List ℚ
  consecutiveCount : Nat
  maxConsecutive : Nat
  emojis : List (String × Nat)
  initiatedCount : Nat
  lateNight : Nat
  morning : Nat
  afternoon : Nat
  evening : Nat
deriving DecidableEq, Repr

/-- The zero-initialised accumulator getSender installs for a new name. -/
def freshSender (n : String) : TempSenderStat :=
  { name := n, count := 0, wordCounts := [], reelCount := 0,
    attachmentCount := 0, totalLen := 0, replyTimes := [],
    consecutiveCount := 0, maxConsecutive := 0, emojis := [],
    initiatedCount := 0, lateNight := 0, morning := 0, afternoon := 0,
    evening := 0 }

/-- Whether the sender map already holds an entry for the name. -/
def hasSender (m : List TempSenderStat) (n : String) : Bool :=
  m.any (fun s => s.name = n)

/-- The creating half of getSender: append a fresh accumulator if the
name is not present (JS object properties keep insertion order). -/
def ensureSender (m : List TempSenderStat) (n : String) :
    List TempSenderStat :=
  if hasSender m n then m else m ++ [freshSender n]

/-- Mutate the (first and only) entry of the given name in place. -/
def adjustSender : List TempSenderStat → String →
    (TempSenderStat → TempSenderStat) → List TempSenderStat
  | [], _, _ => []
  | s :: rest, n, f =>
      if s.name = n then f s :: rest else s :: adjustSender rest n f

/-- getSender followed by a field mutation of the returned entry. -/
def getUpdate (m : List TempSenderStat) (n : String)
    (f : TempSenderStat → TempSenderStat) : List TempSenderStat :=
  adjustSender (ensureSender m n) n f

/-- First entry of the given name, if any. -/
def findSender : List TempSenderStat → String → Option TempSenderStat
  | [], _ => none
  | s :: rest, n => if s.name = n then some s else findSender rest n

/-- The time-of-day bucket increment: hours below 4 are late night,
below 12 morning, below 20 afternoon, everything else evening (the
hour of Date.prototype.getHours is never negative). -/
def bucketInc (hour : Nat) (s : TempSenderStat) : TempSenderStat :=
  if hour < 4 then { s with lateNight := s.lateNight + 1 }
  else if hour < 12 then { s with morning := s.morning + 1 }
  else if hour < 20 then { s with afternoon := s.afternoon + 1 }
  else { s with evening := s.evening + 1 }

/-- The unconditional per-message updates of the current sender's
accumulator: count, kind counters, character length, words, emojis and
the time-of-day bucket. -/
def msgBase (em : String → List String) (msg : RawMessage)
    (s : TempSenderStat) : TempSenderStat :=
  bucketInc (hourOf msg.timestamp)
    { s with
      count := s.count + 1,
      reelCount := s.reelCount + (if msg.type = MsgType.reel then 1 else 0),
      attachmentCount :=
        s.attachmentCount + (if msg.type = MsgType.attachment then 1 else 0),
      totalLen := s.totalLen + msg.content.length,
      wordCounts := tokenizeAndCount msg.content s.wordCounts,
      emojis := accumEmoji (em msg.content) s.emojis }

/-- Reply branch of the dynamics: push the minute gap, and count an
initiation when the silence was longer than 360 minutes. -/
def replyUpd (gap : ℚ) (s : TempSenderStat) : TempSenderStat :=
  { s with
    replyTimes := s.replyTimes ++ [gap],
    initiatedCount := s.initiatedCount + (if (360 : ℚ) < gap then 1 else 0) }

/-- Same-sender branch: advance the consecutive counter and the running
maximum streak. -/
def streakUpd (s : TempSenderStat) : TempSenderStat :=
  { s with
    consecutiveCount := s.consecutiveCount + 1,
    maxConsecutive := max s.maxConsecutive (s.consecutiveCount + 1) }

/-- Reset of the previous sender's consecutive counter. -/
def resetStreak (s : TempSenderStat) : TempSenderStat :=
  { s with consecutiveCount := 0 }

/-- First-message-ever branch: the sender initiated the conversation. -/
def initUpd (s : TempSenderStat) : TempSenderStat :=
  { s with initiatedCount := s.initiatedCount + 1 }

/-- The carried state of the single analysis pass. -/
structure AnalysisState where
  senderMap : List TempSenderStat
  hourlyStats : List (Nat × Nat)
  timelineStats : List (Nat × Nat)
  dailyActivity : List (Nat × Nat)
  previousMsg : Option RawMessage
deriving Repr

/-- The empty containers before the pass. -/
def initState : AnalysisState :=
  { senderMap := [], hourlyStats := [], timelineStats := [],
    dailyActivity := [], previousMsg := none }

/-- One iteration of the analysis loop over a message: the basic
per-sender updates, the hour histogram, the day keyed timeline and
activity maps, and the reply and streak dynamics against the previous
message. -/
def processMessage (em : String → List String) (st : AnalysisState)
    (msg : RawMessage) : AnalysisState :=
  let hour := hourOf msg.timestamp
  let day := dayOf msg.timestamp
  let map1 := getUpdate st.senderMap msg.sender (msgBase em msg)
  let map2 :=
    match st.previousMsg with
    | some prev =>
        if prev.sender ≠ msg.sender then
          let gap : ℚ :=
            ((msg.timestamp : ℚ) - (prev.timestamp : ℚ)) / (msPerMinute : ℚ)
          getUpdate (adjustSender map1 msg.sender (replyUpd gap))
            prev.sender resetStreak
        else
          adjustSender map1 msg.sender streakUpd
    | none => adjustSender map1 msg.sender initUpd
  { senderMap := map2,
    hourlyStats := bump st.hourlyStats hour,
    timelineStats := bump st.timelineStats day,
    dailyActivity := bump st.dailyActivity day,
    previousMsg := some msg }

/-- The analysis loop over the chronologically sorted message list. -/
def analyze (em : String → List String) (msgs : List RawMessage) :
    AnalysisState :=
  msgs.foldl (processMessage em) initState

/-- The fixed display palette COLORS of the source. -/
def COLORS : List String :=
  ["#4F46E5", "#EC4899", "#10B981", "#F59E0B",
   "#6366F1", "#8B5CF6", "#EF4444", "#3B82F6"]

/-- COLORS[idx % COLORS.length]. -/
def colorAt (idx : Nat) : String := COLORS.getD (idx % COLORS.length) ""

/-- Math.round on an exact rational: floor of x + 1/2, which is the JS
round-half-towards-positive-infinity rule. -/
def jround (x : ℚ) : ℤ := ⌊x + 1 / 2⌋

/-- The public per-sender snapshot (SenderStat of the source). -/
structure SenderStat where
  name : String
  count : Nat
  color : String
  wordCounts : List (String × Nat)
  reelCount : Nat
  attachmentCount : Nat
  avgMessageLength : ℤ
  avgReplyTimeMinutes : ℤ
  fastestReplySeconds : ℤ
  slowestReplyMinutes : ℤ
  longestStreakMessages : Nat
  emojis : List (String × Nat)
  initiatedConversations : Nat
  lateNightMessages : Nat
  morningMessages : Nat
  afternoonMessages : Nat
  eveningMessages : Nat
deriving DecidableEq, Repr

/-- Ascending order on rationals for the reply-time sort (the numeric
comparator (a, b) => a - b of the source). -/
def ratLe (a b : ℚ) : Prop := a ≤ b

instance : DecidableRel ratLe := fun a b => inferInstanceAs (Decidable (a ≤ b))

/-- Snapshot of one accumulator, with the display color taken from the
palette at the accumulator's position in the sender map, which is
first-seen order (the map over Object.values runs before the sort). -/
def toSenderStat (idx : Nat) (s : TempSenderStat) : SenderStat :=
  let rt := List.insertionSort ratLe s.replyTimes
  let avgReply : ℚ := if rt.length ≠ 0 then rt.sum / (rt.length : ℚ) else 0
  let fastest : ℚ := if rt.length ≠ 0 then rt.headD 0 * 60 else 0
  let slowest : ℚ := if rt.length ≠ 0 then rt.getLastD 0 else 0
  { name := s.name,
    count := s.count,
    color := colorAt idx,
    wordCounts := s.wordCounts,
    reelCount := s.reelCount,
    attachmentCount := s.attachmentCount,
    avgMessageLength :=
      if s.count > 0 then jround ((s.totalLen : ℚ) / (s.count : ℚ)) else 0,
    avgReplyTimeMinutes := jround avgReply,
    fastestReplySeconds := jround fastest,
    slowestReplyMinutes := jround slowest,
    longestStreakMessages := s.maxConsecutive,
    emojis := s.emojis,
    initiatedConversations := s.initiatedCount,
    lateNightMessages := s.lateNight,
    morningMessages := s.morning,
    afternoonMessages := s.afternoon,
    eveningMessages := s.evening }

/-- Map with the element's position, the (s, idx) callback of the JS
Array.prototype.map. -/
def mapWithIdx {α β : Type} (f : Nat → α → β) : Nat → List α → List β
  | _, [] => []
  | i, a :: as => f i a :: mapWithIdx f (i + 1) as

/-- Descending-by-count order of the final sender sort, the comparator
(a, b) => b.count - a.count. -/
def byCountDesc (a b : SenderStat) : Prop := b.count ≤ a.count

instance : DecidableRel byCountDesc :=
  fun a b => inferInstanceAs (Decidable (b.count ≤ a.count))

instance : IsTotal SenderStat byCountDesc :=
  ⟨fun a b => (Nat.le_total b.count a.count).imp id id⟩

instance : IsTrans SenderStat byCountDesc :=
  ⟨fun _ _ _ h1 h2 => le_trans h2 h1⟩

/-- Final sender list: color by first-seen position, then a stable sort
descending by message count. -/
def assembleSenders (m : List TempSenderStat) : List SenderStat :=
  List.insertionSort byCountDesc (mapWithIdx toSenderStat 0 m)

/-- Ascending chronological order of messages, the comparator
(a, b) => a.timestamp - b.timestamp (a stable sort). -/
def byTimestamp (a b : RawMessage) : Prop := a.timestamp ≤ b.timestamp

instance : DecidableRel byTimestamp :=
  fun a b => inferInstanceAs (Decidable (a.timestamp ≤ b.timestamp))

/-- rawMessages.sort((a, b) => a.timestamp.getTime() - b.timestamp.getTime()). -/
def sortMsgs (msgs : List RawMessage) : List RawMessage :=
  List.insertionSort byTimestamp msgs

/-- Object.keys(dailyActivity).sort(): the day keys in ascending order
(lexicographic on the "YYYY-MM-DD" strings, numeric on the ordinals). -/
def sortedDaysOf (daily : List (Nat × Nat)) : List Nat :=
  List.insertionSort (fun a b => a ≤ b) (daily.map Prod.fst)

/-- One step of the day-streak scan carrying (currentStreak, maxStreak,
prevDate): the ceiling of the millisecond difference in days continues
the streak when it is exactly one, otherwise folds the current streak
into the maximum and restarts at one. -/
def dayStreakStep (acc : Nat × Nat × Nat) (d : Nat) : Nat × Nat × Nat :=
  let diffTime := ((d : ℤ) - (acc.2.2 : ℤ)).natAbs * msPerDay
  let diffDays := (diffTime + (msPerDay - 1)) / msPerDay
  if diffDays = 1 then (acc.1 + 1, acc.2.1, d)
  else (1, max acc.2.1 acc.1, d)

/-- The longest run of consecutive active days over the sorted distinct
day keys; zero when there is no active day at all. -/
def maxDayStreakOf : List Nat → Nat
  | [] => 0
  | d0 :: rest =>
      let acc := rest.foldl dayStreakStep (1, 1, d0)
      max acc.2.1 acc.1

/-- The largest whole-day difference between chronologically
consecutive active days (the floor of an integral quotient). -/
def longestGapDaysOf (ds : List Nat) : ℤ :=
  if ds.length > 1 then
    ((ds.zip ds.tail).map (fun p => (p.2 : ℤ) - (p.1 : ℤ))).foldl
      (fun m x => if x > m then x else m) 0
  else 0

/-- Format-detection metadata (parsedAt is the wall-clock instant of
the call, modelled as an explicit input of the parse). -/
structure ChatMetadata where
  parsedAt : Nat
  rawNodeCount : Nat
  detectedFormat : String
deriving DecidableEq, Repr

/-- The public result (ChatAnalysisResult of the source) restricted to
the fields the verified properties speak about; the busiest-day and
busiest-month fields and the month counter map are the only omissions. -/
structure ChatAnalysisResult where
  fileName : String
  totalMessages : Nat
  senders : List SenderStat
  hourlyStats : List (Nat × Nat)
  timelineStats : List (Nat × Nat)
  totalDays : Nat
  firstMessageDate : Option Nat
  lastMessageDate : Option Nat
  longestGapDays : ℤ
  longestDayStreak : Nat
  activeDaysPct : ℤ
  metadata : ChatMetadata
deriving DecidableEq, Repr

/-- The whole-sequence computations and the result assembly that run
after the analysis loop on the sorted message list. -/
def analyzeAndAssemble (em : String → List String)
    (sorted : List RawMessage) (fileName fmt : String)
    (nodeCount now : Nat) : ChatAnalysisResult :=
  let st := analyze em sorted
  let sortedDays := sortedDaysOf st.dailyActivity
  let firstDate : Option Nat := sorted.head?.map (fun m => m.timestamp)
  let lastDate : Option Nat := sorted.getLast?.map (fun m => m.timestamp)
  let activeDaysPct : ℤ :=
    match firstDate, lastDate with
    | some f, some l =>
        let totalDaysSpan : ℚ := ((l : ℚ) - (f : ℚ)) / (msPerDay : ℚ)
        if totalDaysSpan > 0 then
          jround (((sortedDays.length : ℚ) / totalDaysSpan) * 100)
        else 0
    | _, _ => 0
  { fileName := fileName,
    totalMessages := sorted.length,
    senders := assembleSenders st.senderMap,
    hourlyStats := st.hourlyStats,
    timelineStats := st.timelineStats,
    totalDays := sortedDays.length,
    firstMessageDate := firstDate,
    lastMessageDate := lastDate,
    longestGapDays := longestGapDaysOf sortedDays,
    longestDayStreak := maxDayStreakOf sortedDays,
    activeDaysPct := activeDaysPct,
    metadata :=
      { parsedAt := now, rawNodeCount := nodeCount, detectedFormat := fmt } }

/-- The external library capabilities the parse consumes, as
deterministic functions of the raw document text: the three extraction
strategies over the parsed DOM tree (class-anchored Meta, heuristic
date scan, Telegram), the emptiness of their container selections that
drives the format label, the diagnostic element count, and the emoji
matches of the Unicode regular expression. -/
structure DomEnv where
  strat1 : String → List RawMessage
  strat2 : String → List RawMessage
  strat3 : String → List RawMessage
  pamNonempty : String → Bool
  telegramNonempty : String → Bool
  nodeCount : String → Nat
  emojiMatch : String → List String

/-- The strategy cascade: strategy 1 runs (and takes the format label)
when its container selection is non-empty; strategy 2 runs only on an
empty message list and takes the label only when it found something;
strategy 3 runs on a still empty list and takes the label when its
container selection is non-empty. Returns the extracted raw messages
and the detected format label. -/
def cascade (env : DomEnv) (text : String) : List RawMessage × String :=
  let step1 : List RawMessage × String :=
    if env.pamNonempty text then
      (env.strat1 text, "Meta/Instagram Export (Class)")
    else ([], "Unknown")
  let step2 : List RawMessage × String :=
    if step1.1.isEmpty then
      let m2 := env.strat2 text
      if m2.isEmpty then step1
      else (m2, "Meta/Instagram Export (Heuristic)")
    else step1
  if step2.1.isEmpty then
    if env.telegramNonempty text then (env.strat3 text, "Telegram Export")
    else step2
  else step2

/-- The single-document parse: reject an empty text payload, run the
cascade, reject an empty extraction, otherwise sort chronologically,
analyse and assemble.  The error strings are the messages of the two
throw sites of the source. -/
def parseChatFile (env : DomEnv) (text fileName : String) (now : Nat) :
    Except String ChatAnalysisResult :=
  if text = "" then Except.error "Empty file content"
  else
    let raw := (cascade env text).1
    if raw.isEmpty then
      Except.error "No messages found or format unrecognized."
    else
      Except.ok
        (analyzeAndAssemble env.emojiMatch (sortMsgs raw) fileName
          (cascade env text).2 (env.nodeCount text) now)

/-- Erase the wall-clock field of the metadata, for the determinism
statement. -/
def scrubTime (r : ChatAnalysisResult) : ChatAnalysisResult :=
  { r with metadata := { r.metadata with parsedAt := 0 } }

/-- First public sender entry of the given name, if any. -/
def findStat : List SenderStat → String → Option SenderStat
  | [], _ => none
  | s :: rest, n => if s.name = n then some s else findStat rest n

/-- A decidable check on the value of a successful parse (false on an
error), used to state concrete evaluations. -/
def okCheck (p : ChatAnalysisResult → Bool) :
    Except String ChatAnalysisResult → Bool
  | Except.ok r => p r
  | Except.error _ => false

/-- The active-days percentage exactly as the specification words it:
the rounded value of 100 times the distinct active days over the span
in days between the last and the first message instant, and 0 when the
span is zero or undefined. -/
def specActiveDaysPct (firstDate lastDate : Option Nat)
    (distinctActiveDays : Nat) : ℤ :=
  match firstDate, lastDate with
  | some f, some l =>
      let totalSpanInDays : ℚ := ((l : ℚ) - (f : ℚ)) / (msPerDay : ℚ)
      if totalSpanInDays > 0 then
        jround (100 * (distinctActiveDays : ℚ) / totalSpanInDays)
      else 0
  | _, _ => 0

/-- An instant from an epoch day ordinal and a UTC wall-clock time. -/
def mkMs (day hour minute : Nat) : Nat :=
  day * msPerDay + hour * msPerHour + minute * msPerMinute

/-- The epoch day ordinal of 2024-01-01 (54 years of 365 days after
1970-01-01 plus the 13 leap days of 1972 through 2020). -/
def day20240101 : Nat := 19723

/-- An environment whose class-anchored strategy extracts a fixed
message list from any document and whose other capabilities are
constant, for concrete end-to-end evaluations. -/
def constEnv (msgs : List RawMessage) : DomEnv :=
  { strat1 := fun _ => msgs,
    strat2 := fun _ => [],
    strat3 := fun _ => [],
    pamNonempty := fun _ => true,
    telegramNonempty := fun _ => false,
    nodeCount := fun _ => 5,
    emojiMatch := fun _ => [] }

/-- The four messages of the end-to-end scenario: Ann at 09:00, 09:05
and 09:10 and Ben at 09:20, all on 2024-01-01. -/
def msgs4 : List RawMessage :=
  [{ sender := "Ann", timestamp := mkMs day20240101 9 0,
     content := "", type := MsgType.text },
   { sender := "Ann", timestamp := mkMs day20240101 9 5,
     content := "", type := MsgType.text },
   { sender := "Ann", timestamp := mkMs day20240101 9 10,
     content := "", type := MsgType.text },
   { sender := "Ben", timestamp := mkMs day20240101 9 20,
     content := "", type := MsgType.text }]

/-- Two messages on the same calendar day twelve hours apart: one
distinct active day over a half-day span. -/
def msgsHalfDay : List RawMessage :=
  [{ sender := "Ann", timestamp := mkMs day20240101 0 0,
     content := "", type := MsgType.text },
   { sender := "Ben", timestamp := mkMs day20240101 12 0,
     content := "", type := MsgType.text }]

/-- Three messages: the first-seen sender has one message, the
second-seen sender has two, so rank order and first-seen order
disagree. -/
def msgsRank : List RawMessage :=
  [{ sender := "Al", timestamp := mkMs day20240101 9 0,
     content := "", type := MsgType.text },
   { sender := "Bo", timestamp := mkMs day20240101 10 0,
     content := "", type := MsgType.text },
   { sender := "Bo", timestamp := mkMs day20240101 11 0,
     content := "", type := MsgType.text }]

/-- Sum of the message counts of the accumulators. -/
def sumTempCounts (m : List TempSenderStat) : Nat :=
  (m.map (fun s => s.count)).sum

/-- Sum of the message counts of the public sender entries. -/
def sumCounts (l : List SenderStat) : Nat :=
  (l.map (fun s => s.count)).sum

theorem sumVals_bump {α : Type} [DecidableEq α] (m : List (α × Nat))
    (k : α) : sumVals (bump m k) = sumVals m + 1 := by
  induction m with
  | nil => rfl
  | cons p rest ih =>
      obtain ⟨k0, v⟩ := p
      by_cases h : k0 = k
      · simp [bump, h, sumVals]
        omega
      · simp [bump, h, sumVals] at ih ⊢
        omega

theorem bucketInc_count (hour : Nat) (s : TempSenderStat) :
    (bucketInc hour s).count = s.count := by
  unfold bucketInc
  split
  · rfl
  · split
    · rfl
    · split <;> rfl

theorem msgBase_count (em : String → List String) (msg : RawMessage)
    (s : TempSenderStat) : (msgBase em msg s).count = s.count + 1 := by
  unfold msgBase
  rw [bucketInc_count]

theorem hasSender_ensureSender (m : List TempSenderStat) (n : String) :
    hasSender (ensureSender m n) n = true := by
  unfold ensureSender
  split
  · assumption
  · simp [hasSender, freshSender]

theorem sumTempCounts_ensureSender (m : List TempSenderStat) (n : String) :
    sumTempCounts (ensureSender m n) = sumTempCounts m := by
  unfold ensureSender
  split
  · rfl
  · simp [sumTempCounts, freshSender]

theorem sumTempCounts_adjustSender_of_inc (m : List TempSenderStat)
    (n : String) (f : TempSenderStat → TempSenderStat)
    (h : ∀ s, (f s).count = s.count + 1) :
    sumTempCounts (adjustSender m n f) =
      sumTempCounts m + (if hasSender m n then 1 else 0) := by
  induction m with
  | nil => rfl
  | cons s rest ih =>
      by_cases hn : s.name = n
      · simp [adjustSender, hasSender, hn, sumTempCounts, h s]
        omega
      · simp [adjustSender, hasSender, hn, sumTempCounts] at ih ⊢
        omega

theorem sumTempCounts_adjustSender_of_eq (m : List TempSenderStat)
    (n : String) (f : TempSenderStat → TempSenderStat)
    (h : ∀ s, (f s).count = s.count) :
    sumTempCounts (adjustSender m n f) = sumTempCounts m := by
  induction m with
  | nil => rfl
  | cons s rest ih =>
      by_cases hn : s.name = n
      · simp [adjustSender, hn, sumTempCounts, h s]
      · simp [adjustSender, hn, sumTempCounts] at ih ⊢
        omega

theorem sumTempCounts_getUpdate_of_inc (m : List TempSenderStat)
    (n : String) (f : TempSenderStat → TempSenderStat)
    (h : ∀ s, (f s).count = s.count + 1) :
    sumTempCounts (getUpdate m n f) = sumTempCounts m + 1 := by
  unfold getUpdate
  rw [sumTempCounts_adjustSender_of_inc _ _ _ h, hasSender_ensureSender,
    sumTempCounts_ensureSender]
  simp

theorem sumTempCounts_getUpdate_of_eq (m : List TempSenderStat)
    (n : String) (f : TempSenderStat → TempSenderStat)
    (h : ∀ s, (f s).count = s.count) :
    sumTempCounts (getUpdate m n f) = sumTempCounts m := by
  unfold getUpdate
  rw [sumTempCounts_adjustSender_of_eq _ _ _ h, sumTempCounts_ensureSender]

theorem sumTempCounts_processMessage (em : String → List String)
    (st : AnalysisState) (msg : RawMessage) :
    sumTempCounts (processMessage em st msg).senderMap =
      sumTempCounts st.senderMap + 1 := by
  unfold processMessage
  cases hp : st.previousMsg with
  | none =>
      rw [sumTempCounts_adjustSender_of_eq _ _ initUpd (fun s => rfl),
        sumTempCounts_getUpdate_of_inc _ _ _ (msgBase_count em msg)]
  | some prev =>
      by_cases hne : prev.sender ≠ msg.sender
      · simp only [if_pos hne]
        rw [sumTempCounts_getUpdate_of_eq _ _ resetStreak (fun s => rfl),
          sumTempCounts_adjustSender_of_eq _ _ (replyUpd _) (fun s => rfl),
          sumTempCounts_getUpdate_of_inc _ _ _ (msgBase_count em msg)]
      · simp only [if_neg hne]
        rw [sumTempCounts_adjustSender_of_eq _ _ streakUpd (fun s => rfl),
          sumTempCounts_getUpdate_of_inc _ _ _ (msgBase_count em msg)]

theorem hourly_processMessage (em : String → List String)
    (st : AnalysisState) (msg : RawMessage) :
    (processMessage em st msg).hourlyStats =
      bump st.hourlyStats (hourOf msg.timestamp) := by
  unfold processMessage
  cases st.previousMsg <;> rfl

theorem timeline_processMessage (em : String → List String)
    (st : AnalysisState) (msg : RawMessage) :
    (processMessage em st msg).timelineStats =
      bump st.timelineStats (dayOf msg.timestamp) := by
  unfold processMessage
  cases st.previousMsg <;> rfl

theorem daily_processMessage (em : String → List String)
    (st : AnalysisState) (msg : RawMessage) :
    (processMessage em st msg).dailyActivity =
      bump st.dailyActivity (dayOf msg.timestamp) := by
  unfold processMessage
  cases st.previousMsg <;> rfl

theorem analyze_go_sums (em : String → List String)
    (msgs : List RawMessage) :
    ∀ st : AnalysisState,
      sumTempCounts (msgs.foldl (processMessage em) st).senderMap =
        sumTempCounts st.senderMap + msgs.length ∧
      sumVals (msgs.foldl (processMessage em) st).hourlyStats =
        sumVals st.hourlyStats + msgs.length ∧
      sumVals (msgs.foldl (processMessage em) st).timelineStats =
        sumVals st.timelineStats + msgs.length := by
  induction msgs with
  | nil => intro st; simp
  | cons msg rest ih =>
      intro st
      obtain ⟨h1, h2, h3⟩ := ih (processMessage em st msg)
      refine ⟨?_, ?_, ?_⟩
      · rw [List.foldl_cons, h1, sumTempCounts_processMessage]
        simp only [List.length_cons]
        omega
      · rw [List.foldl_cons, h2, hourly_processMessage, sumVals_bump]
        simp only [List.length_cons]
        omega
      · rw [List.foldl_cons, h3, timeline_processMessage, sumVals_bump]
        simp only [List.length_cons]
        omega

theorem analyze_sums (em : String → List String) (msgs : List RawMessage) :
    sumTempCounts (analyze em msgs).senderMap = msgs.length ∧
    sumVals (analyze em msgs).hourlyStats = msgs.length ∧
    sumVals (analyze em msgs).timelineStats = msgs.length := by
  have h := analyze_go_sums em msgs initState
  simpa [analyze, initState, sumTempCounts, sumVals] using h

theorem mapWithIdx_map_count :
    ∀ (i : Nat) (m : List TempSenderStat),
      (mapWithIdx toSenderStat i m).map (fun s => s.count) =
        m.map (fun s => s.count) := by
  intro i m
  induction m generalizing i with
  | nil => rfl
  | cons s rest ih => simp [mapWithIdx, toSenderStat, ih]

theorem sumCounts_assembleSenders (m : List TempSenderStat) :
    sumCounts (assembleSenders m) = sumTempCounts m := by
  unfold sumCounts assembleSenders sumTempCounts
  have hperm :
      List.Perm (List.insertionSort byCountDesc (mapWithIdx toSenderStat 0 m))
        (mapWithIdx toSenderStat 0 m) :=
    List.perm_insertionSort byCountDesc _
  rw [(hperm.map (fun s => s.count)).sum_eq, mapWithIdx_map_count]

theorem parse_ok_iff (env : DomEnv) (text fileName : String) (now : Nat)
    (r : ChatAnalysisResult) :
    parseChatFile env text fileName now = Except.ok r ↔
      text ≠ "" ∧ (cascade env text).1.isEmpty = false ∧
      r = analyzeAndAssemble env.emojiMatch (sortMsgs (cascade env text).1)
            fileName (cascade env text).2 (env.nodeCount text) now := by
  unfold parseChatFile
  by_cases ht : text = ""
  · simp [ht]
  · by_cases hr : (cascade env text).1.isEmpty
    · simp [ht, hr]
    · rw [if_neg ht, if_neg hr]
      constructor
      · intro h
        injection h with h2
        exact ⟨ht, by simpa using hr, h2.symm⟩
      · rintro ⟨-, -, rfl⟩
        rfl

theorem analyzeAndAssemble_totals (em : String → List String)
    (sorted : List RawMessage) (fileName fmt : String) (nc now : Nat) :
    sumCounts (analyzeAndAssemble em sorted fileName fmt nc now).senders =
        (analyzeAndAssemble em sorted fileName fmt nc now).totalMessages ∧
      sumVals (analyzeAndAssemble em sorted fileName fmt nc now).hourlyStats =
        (analyzeAndAssemble em sorted fileName fmt nc now).totalMessages ∧
      sumVals (analyzeAndAssemble em sorted fileName fmt nc now).timelineStats =
        (analyzeAndAssemble em sorted fileName fmt nc now).totalMessages := by
  obtain ⟨h1, h2, h3⟩ := analyze_sums em sorted
  simp only [analyzeAndAssemble]
  exact ⟨by rw [sumCounts_assembleSenders, h1], by rw [h2], by rw [h3]⟩

/-- C1: for every successfully parsed document, the per-sender message
counts sum to totalMessages, and so do the hour-of-day histogram values
and the day-keyed timeline values. -/
theorem parse_totals_agree (env : DomEnv) (text fileName : String)
    (now : Nat) (r : ChatAnalysisResult)
    (h : parseChatFile env text fileName now = Except.ok r) :
    sumCounts r.senders = r.totalMessages ∧
      sumVals r.hourlyStats = r.totalMessages ∧
      sumVals r.timelineStats = r.totalMessages := by
  obtain ⟨-, -, rfl⟩ := (parse_ok_iff env text fileName now r).mp h
  exact analyzeAndAssemble_totals _ _ _ _ _ _

/-- The all-empty fallback value used to name the payload of a
successful concrete parse. -/
def emptyResult : ChatAnalysisResult :=
  { fileName := "", totalMessages := 0, senders := [], hourlyStats := [],
    timelineStats := [], totalDays := 0, firstMessageDate := none,
    lastMessageDate := none, longestGapDays := 0, longestDayStreak := 0,
    activeDaysPct := 0,
    metadata := { parsedAt := 0, rawNodeCount := 0, detectedFormat := "" } }

/-- The payload of a successful parse, or the fallback on an error. -/
def okOr (e : Except String ChatAnalysisResult) (d : ChatAnalysisResult) :
    ChatAnalysisResult :=
  match e with
  | Except.ok r => r
  | Except.error _ => d

/-- The concrete result of parsing the four-message scenario. -/
def res4 : ChatAnalysisResult :=
  okOr (parseChatFile (constEnv msgs4) "x" "f" 0) emptyResult

/-- Witness of C1 at the four-message scenario. -/
theorem parse_totals_agree_witness :
    sumCounts res4.senders = res4.totalMessages ∧
      sumVals res4.hourlyStats = res4.totalMessages ∧
      sumVals res4.timelineStats = res4.totalMessages :=
  parse_totals_agree (constEnv msgs4) "x" "f" 0 res4 rfl

/-- The four time-of-day buckets of an accumulator partition its
messages. -/
def bucketsOk (s : TempSenderStat) : Prop :=
  s.lateNight + s.morning + s.afternoon + s.evening = s.count

theorem bucketsOk_freshSender (n : String) : bucketsOk (freshSender n) :=
  rfl

theorem bucketsOk_msgBase (em : String → List String) (msg : RawMessage)
    (s : TempSenderStat) (h : bucketsOk s) :
    bucketsOk (msgBase em msg s) := by
  unfold bucketsOk at h ⊢
  unfold msgBase bucketInc
  by_cases h4 : hourOf msg.timestamp < 4
  · rw [if_pos h4]
    show s.lateNight + 1 + s.morning + s.afternoon + s.evening = s.count + 1
    omega
  · rw [if_neg h4]
    by_cases h12 : hourOf msg.timestamp < 12
    · rw [if_pos h12]
      show s.lateNight + (s.morning + 1) + s.afternoon + s.evening = s.count + 1
      omega
    · rw [if_neg h12]
      by_cases h20 : hourOf msg.timestamp < 20
      · rw [if_pos h20]
        show s.lateNight + s.morning + (s.afternoon + 1) + s.evening =
          s.count + 1
        omega
      · rw [if_neg h20]
        show s.lateNight + s.morning + s.afternoon + (s.evening + 1) =
          s.count + 1
        omega

theorem mem_adjustSender (m : List TempSenderStat) (n : String)
    (f : TempSenderStat → TempSenderStat) (t : TempSenderStat)
    (h : t ∈ adjustSender m n f) : t ∈ m ∨ ∃ u ∈ m, t = f u := by
  induction m with
  | nil => cases h
  | cons s rest ih =>
      unfold adjustSender at h
      by_cases hn : s.name = n
      · rw [if_pos hn] at h
        rcases List.mem_cons.mp h with rfl | h
        · exact Or.inr ⟨s, List.mem_cons_self s rest, rfl⟩
        · exact Or.inl (List.mem_cons_of_mem s h)
      · rw [if_neg hn] at h
        rcases List.mem_cons.mp h with rfl | h
        · exact Or.inl (List.mem_cons_self _ _)
        · rcases ih h with h2 | ⟨u, hu, rfl⟩
          · exact Or.inl (List.mem_cons_of_mem s h2)
          · exact Or.inr ⟨u, List.mem_cons_of_mem s hu, rfl⟩

theorem mem_ensureSender (m : List TempSenderStat) (n : String)
    (t : TempSenderStat) (h : t ∈ ensureSender m n) :
    t ∈ m ∨ t = freshSender n := by
  unfold ensureSender at h
  split at h
  · exact Or.inl h
  · rcases List.mem_append.mp h with h2 | h2
    · exact Or.inl h2
    · exact Or.inr (List.mem_singleton.mp h2)

theorem all_bucketsOk_adjustSender (m : List TempSenderStat) (n : String)
    (f : TempSenderStat → TempSenderStat)
    (hf : ∀ s, bucketsOk s → bucketsOk (f s))
    (hm : ∀ t ∈ m, bucketsOk t) :
    ∀ t ∈ adjustSender m n f, bucketsOk t := by
  intro t ht
  rcases mem_adjustSender m n f t ht with h | ⟨u, hu, rfl⟩
  · exact hm t h
  · exact hf u (hm u hu)

theorem all_bucketsOk_getUpdate (m : List TempSenderStat) (n : String)
    (f : TempSenderStat → TempSenderStat)
    (hf : ∀ s, bucketsOk s → bucketsOk (f s))
    (hm : ∀ t ∈ m, bucketsOk t) :
    ∀ t ∈ getUpdate m n f, bucketsOk t := by
  unfold getUpdate
  refine all_bucketsOk_adjustSender _ _ _ hf ?_
  intro t ht
  rcases mem_ensureSender m n t ht with h | rfl
  · exact hm t h
  · exact bucketsOk_freshSender n

theorem all_bucketsOk_processMessage (em : String → List String)
    (st : AnalysisState) (msg : RawMessage)
    (hm : ∀ t ∈ st.senderMap, bucketsOk t) :
    ∀ t ∈ (processMessage em st msg).senderMap, bucketsOk t := by
  unfold processMessage
  have h1 : ∀ t ∈ getUpdate st.senderMap msg.sender (msgBase em msg),
      bucketsOk t :=
    all_bucketsOk_getUpdate _ _ _ (bucketsOk_msgBase em msg) hm
  cases st.previousMsg with
  | none => exact all_bucketsOk_adjustSender _ _ initUpd (fun s h => h) h1
  | some prev =>
      by_cases hne : prev.sender ≠ msg.sender
      · simp only [if_pos hne]
        exact all_bucketsOk_getUpdate _ _ resetStreak (fun s h => h)
          (all_bucketsOk_adjustSender _ _ (replyUpd _) (fun s h => h) h1)
      · simp only [if_neg hne]
        exact all_bucketsOk_adjustSender _ _ streakUpd (fun s h => h) h1

theorem all_bucketsOk_analyze (em : String → List String)
    (msgs : List RawMessage) :
    ∀ t ∈ (analyze em msgs).senderMap, bucketsOk t := by
  unfold analyze
  suffices hgen : ∀ st : AnalysisState, (∀ t ∈ st.senderMap, bucketsOk t) →
      ∀ t ∈ (msgs.foldl (processMessage em) st).senderMap, bucketsOk t by
    exact hgen initState (by intro t ht; cases ht)
  induction msgs with
  | nil => intro st h; exact h
  | cons msg rest ih =>
      intro st h
      exact ih (processMessage em st msg)
        (all_bucketsOk_processMessage em st msg h)

theorem mem_mapWithIdx (f : Nat → TempSenderStat → SenderStat)
    (x : SenderStat) :
    ∀ (i : Nat) (l : List TempSenderStat), x ∈ mapWithIdx f i l →
      ∃ j a, a ∈ l ∧ x = f j a := by
  intro i l
  induction l generalizing i with
  | nil => intro h; cases h
  | cons s rest ih =>
      intro h
      rcases List.mem_cons.mp h with rfl | h
      · exact ⟨i, s, List.mem_cons_self s rest, rfl⟩
      · rcases ih (i + 1) h with ⟨j, a, ha, rfl⟩
        exact ⟨j, a, List.mem_cons_of_mem s ha, rfl⟩

/-- C10: in every successful parse, each sender's four time-of-day
bucket counters partition that sender's messages. -/
theorem time_bucket_partition (env : DomEnv) (text fileName : String)
    (now : Nat) (r : ChatAnalysisResult)
    (h : parseChatFile env text fileName now = Except.ok r) :
    ∀ s ∈ r.senders,
      s.lateNightMessages + s.morningMessages + s.afternoonMessages +
        s.eveningMessages = s.count := by
  obtain ⟨-, -, rfl⟩ := (parse_ok_iff env text fileName now r).mp h
  intro s hs
  simp only [analyzeAndAssemble] at hs
  have hs2 := (List.mem_insertionSort byCountDesc).mp hs
  obtain ⟨j, a, ha, rfl⟩ := mem_mapWithIdx toSenderStat s 0 _ hs2
  have hb := all_bucketsOk_analyze env.emojiMatch _ a ha
  unfold bucketsOk at hb
  simpa [toSenderStat] using hb

/-- Witness of C10 at the four-message scenario. -/
theorem time_bucket_partition_witness :
    res4.senders.Forall
      (fun s =>
        s.lateNightMessages + s.morningMessages + s.afternoonMessages +
          s.eveningMessages = s.count) :=
  List.forall_iff_forall_mem.mpr
    (time_bucket_partition (constEnv msgs4) "x" "f" 0 res4 rfl)

theorem findSender_none_of_not_has (m : List TempSenderStat) (n : String)
    (h : hasSender m n = false) : findSender m n = none := by
  induction m with
  | nil => rfl
  | cons s rest ih =>
      unfold hasSender at h ih
      simp only [List.any_cons, Bool.or_eq_false_iff] at h
      unfold findSender
      rw [if_neg (by simpa using h.1)]
      exact ih h.2

theorem findSender_some_of_has (m : List TempSenderStat) (n : String)
    (h : hasSender m n = true) : ∃ s, findSender m n = some s := by
  induction m with
  | nil => cases h
  | cons s rest ih =>
      unfold hasSender at h ih
      simp only [List.any_cons, Bool.or_eq_true] at h
      unfold findSender
      by_cases hn : s.name = n
      · exact ⟨s, by rw [if_pos hn]⟩
      · rw [if_neg hn]
        exact ih (h.resolve_left (by simpa using hn))

theorem findSender_append (m l : List TempSenderStat) (n : String) :
    findSender (m ++ l) n =
      match findSender m n with
      | some s => some s
      | none => findSender l n := by
  induction m with
  | nil => rfl
  | cons s rest ih =>
      show (if s.name = n then some s else findSender (rest ++ l) n) =
        match (if s.name = n then some s else findSender rest n) with
        | some u => some u
        | none => findSender l n
      by_cases hn : s.name = n
      · rw [if_pos hn, if_pos hn]
      · rw [if_neg hn, if_neg hn, ih]

theorem findSender_ensureSender_self (m : List TempSenderStat) (n : String) :
    findSender (ensureSender m n) n =
      some ((findSender m n).getD (freshSender n)) := by
  unfold ensureSender
  by_cases hh : hasSender m n
  · rw [if_pos hh]
    obtain ⟨s, hs⟩ := findSender_some_of_has m n hh
    rw [hs]
    rfl
  · rw [if_neg hh]
    have h0 : findSender m n = none :=
      findSender_none_of_not_has m n (by simpa using hh)
    rw [findSender_append, h0]
    simp only [findSender, freshSender, if_pos rfl]
    rfl

theorem findSender_ensureSender_ne (m : List TempSenderStat) (n n2 : String)
    (hne : n2 ≠ n) :
    findSender (ensureSender m n) n2 = findSender m n2 := by
  unfold ensureSender
  by_cases hh : hasSender m n
  · rw [if_pos hh]
  · rw [if_neg hh, findSender_append]
    have : findSender [freshSender n] n2 = none := by
      simp only [findSender, freshSender]
      rw [if_neg (by simpa using hne.symm)]
    rw [this]
    cases findSender m n2 <;> rfl

theorem findSender_adjustSender_self (m : List TempSenderStat) (n : String)
    (f : TempSenderStat → TempSenderStat)
    (hf : ∀ u, (f u).name = u.name) :
    findSender (adjustSender m n f) n = (findSender m n).map f := by
  induction m with
  | nil => rfl
  | cons s rest ih =>
      unfold adjustSender
      by_cases hn : s.name = n
      · rw [if_pos hn]
        unfold findSender
        rw [if_pos (by rw [hf, hn]), if_pos hn]
        rfl
      · rw [if_neg hn]
        unfold findSender
        rw [if_neg hn, if_neg hn, ih]

theorem findSender_adjustSender_ne (m : List TempSenderStat) (n n2 : String)
    (f : TempSenderStat → TempSenderStat)
    (hf : ∀ u, (f u).name = u.name) (hne : n2 ≠ n) :
    findSender (adjustSender m n f) n2 = findSender m n2 := by
  induction m with
  | nil => rfl
  | cons s rest ih =>
      unfold adjustSender
      by_cases hn : s.name = n
      · rw [if_pos hn]
        show (if (f s).name = n2 then some (f s) else findSender rest n2) =
          (if s.name = n2 then some s else findSender rest n2)
        rw [if_neg (by rw [hf, hn]; exact fun hc => hne hc.symm),
          if_neg (by rw [hn]; exact fun hc => hne hc.symm)]
      · rw [if_neg hn]
        show (if s.name = n2 then some s
            else findSender (adjustSender rest n f) n2) =
          (if s.name = n2 then some s else findSender rest n2)
        by_cases hn2 : s.name = n2
        · rw [if_pos hn2, if_pos hn2]
        · rw [if_neg hn2, if_neg hn2, ih]

theorem findSender_getUpdate_self (m : List TempSenderStat) (n : String)
    (f : TempSenderStat → TempSenderStat)
    (hf : ∀ u, (f u).name = u.name) :
    findSender (getUpdate m n f) n =
      some (f ((findSender m n).getD (freshSender n))) := by
  unfold getUpdate
  rw [findSender_adjustSender_self _ _ _ hf, findSender_ensureSender_self]
  rfl

theorem findSender_getUpdate_ne (m : List TempSenderStat) (n n2 : String)
    (f : TempSenderStat → TempSenderStat)
    (hf : ∀ u, (f u).name = u.name) (hne : n2 ≠ n) :
    findSender (getUpdate m n f) n2 = findSender m n2 := by
  unfold getUpdate
  rw [findSender_adjustSender_ne _ _ _ _ hf hne,
    findSender_ensureSender_ne _ _ _ hne]

theorem bucketInc_name (hour : Nat) (s : TempSenderStat) :
    (bucketInc hour s).name = s.name := by
  unfold bucketInc
  split
  · rfl
  · split
    · rfl
    · split <;> rfl

theorem bucketInc_replyTimes (hour : Nat) (s : TempSenderStat) :
    (bucketInc hour s).replyTimes = s.replyTimes := by
  unfold bucketInc
  split
  · rfl
  · split
    · rfl
    · split <;> rfl

theorem bucketInc_initiatedCount (hour : Nat) (s : TempSenderStat) :
    (bucketInc hour s).initiatedCount = s.initiatedCount := by
  unfold bucketInc
  split
  · rfl
  · split
    · rfl
    · split <;> rfl

theorem bucketInc_consecutiveCount (hour : Nat) (s : TempSenderStat) :
    (bucketInc hour s).consecutiveCount = s.consecutiveCount := by
  unfold bucketInc
  split
  · rfl
  · split
    · rfl
    · split <;> rfl

theorem bucketInc_maxConsecutive (hour : Nat) (s : TempSenderStat) :
    (bucketInc hour s).maxConsecutive = s.maxConsecutive := by
  unfold bucketInc
  split
  · rfl
  · split
    · rfl
    · split <;> rfl

theorem msgBase_name (em : String → List String) (msg : RawMessage)
    (s : TempSenderStat) : (msgBase em msg s).name = s.name := by
  unfold msgBase
  rw [bucketInc_name]

theorem msgBase_replyTimes (em : String → List String) (msg : RawMessage)
    (s : TempSenderStat) : (msgBase em msg s).replyTimes = s.replyTimes := by
  unfold msgBase
  rw [bucketInc_replyTimes]

theorem msgBase_initiatedCount (em : String → List String)
    (msg : RawMessage) (s : TempSenderStat) :
    (msgBase em msg s).initiatedCount = s.initiatedCount := by
  unfold msgBase
  rw [bucketInc_initiatedCount]

theorem msgBase_consecutiveCount (em : String → List String)
    (msg : RawMessage) (s : TempSenderStat) :
    (msgBase em msg s).consecutiveCount = s.consecutiveCount := by
  unfold msgBase
  rw [bucketInc_consecutiveCount]

theorem msgBase_maxConsecutive (em : String → List String)
    (msg : RawMessage) (s : TempSenderStat) :
    (msgBase em msg s).maxConsecutive = s.maxConsecutive := by
  unfold msgBase
  rw [bucketInc_maxConsecutive]

/-- The accumulator the analysis pass would read for a name before
processing one more message: the stored entry, or a fresh one. -/
def oldEntry (st : AnalysisState) (n : String) : TempSenderStat :=
  (findSender st.senderMap n).getD (freshSender n)

/-- The gap between two messages in minutes, as the source computes it
(millisecond difference divided by 60000). -/
def gapMinutes (prev msg : RawMessage) : ℚ :=
  ((msg.timestamp : ℚ) - (prev.timestamp : ℚ)) / (msPerMinute : ℚ)

/-- C4: when a message follows a message of a different sender, the
minute gap is appended to the replier's reply-gap list, the replier's
initiation counter grows exactly when the gap exceeds 360 minutes, and
the previous sender's consecutive-same-sender counter is reset to
zero. -/
theorem reply_gap_classification (em : String → List String)
    (st : AnalysisState) (msg prev : RawMessage)
    (h1 : st.previousMsg = some prev) (h2 : prev.sender ≠ msg.sender) :
    (findSender (processMessage em st msg).senderMap msg.sender).map
        (fun s => s.replyTimes) =
      some ((oldEntry st msg.sender).replyTimes ++ [gapMinutes prev msg]) ∧
    (findSender (processMessage em st msg).senderMap msg.sender).map
        (fun s => s.initiatedCount) =
      some ((oldEntry st msg.sender).initiatedCount +
        (if (360 : ℚ) < gapMinutes prev msg then 1 else 0)) ∧
    (findSender (processMessage em st msg).senderMap prev.sender).map
        (fun s => s.consecutiveCount) = some 0 := by
  unfold processMessage
  simp only [h1]
  rw [if_pos h2]
  unfold oldEntry gapMinutes
  have hname : ∀ u, (msgBase em msg u).name = u.name := msgBase_name em msg
  have hres : ∀ u : TempSenderStat, (resetStreak u).name = u.name :=
    fun u => rfl
  have hrep : ∀ u : TempSenderStat,
      (replyUpd (((msg.timestamp : ℚ) - (prev.timestamp : ℚ)) /
        (msPerMinute : ℚ)) u).name = u.name := fun u => rfl
  refine ⟨?_, ?_, ?_⟩
  · rw [findSender_getUpdate_ne _ _ _ _ hres (fun hc => h2 hc.symm),
      findSender_adjustSender_self _ _ _ hrep,
      findSender_getUpdate_self _ _ _ hname]
    simp only [Option.map_some']
    unfold replyUpd
    rw [msgBase_replyTimes]
  · rw [findSender_getUpdate_ne _ _ _ _ hres (fun hc => h2 hc.symm),
      findSender_adjustSender_self _ _ _ hrep,
      findSender_getUpdate_self _ _ _ hname]
    simp only [Option.map_some']
    unfold replyUpd
    rw [msgBase_initiatedCount]
  · rw [findSender_getUpdate_self _ _ _ hres]
    rfl

/-- The constant empty emoji matcher of the concrete scenarios. -/
def em0 : String → List String := fun _ => []

/-- A state carrying a previous message from sender A at instant 0. -/
def msgA : RawMessage :=
  { sender := "A", timestamp := 0, content := "", type := MsgType.text }

/-- The state right after processing no message but remembering msgA. -/
def stPrevA : AnalysisState :=
  { senderMap := [], hourlyStats := [], timelineStats := [],
    dailyActivity := [], previousMsg := some msgA }

/-- A reply by B 400 minutes after msgA. -/
def msgB400 : RawMessage :=
  { sender := "B", timestamp := 400 * msPerMinute, content := "",
    type := MsgType.text }

/-- A reply by B 10 minutes after msgA. -/
def msgB10 : RawMessage :=
  { sender := "B", timestamp := 10 * msPerMinute, content := "",
    type := MsgType.text }

/-- Witness of C4 at a 400-minute and at a 10-minute gap. -/
theorem reply_gap_classification_witness :
    gapMinutes msgA msgB400 = 400 ∧ gapMinutes msgA msgB10 = 10 ∧
    stPrevA.previousMsg = some msgA ∧ msgA.sender ≠ msgB400.sender ∧
    ((findSender (processMessage em0 stPrevA msgB400).senderMap
          msgB400.sender).map (fun s => s.replyTimes) =
        some ((oldEntry stPrevA msgB400.sender).replyTimes ++
          [gapMinutes msgA msgB400]) ∧
      (findSender (processMessage em0 stPrevA msgB400).senderMap
          msgB400.sender).map (fun s => s.initiatedCount) =
        some ((oldEntry stPrevA msgB400.sender).initiatedCount +
          (if (360 : ℚ) < gapMinutes msgA msgB400 then 1 else 0)) ∧
      (findSender (processMessage em0 stPrevA msgB400).senderMap
          msgA.sender).map (fun s => s.consecutiveCount) = some 0) ∧
    ((findSender (processMessage em0 stPrevA msgB10).senderMap
          msgB10.sender).map (fun s => s.replyTimes) =
        some ((oldEntry stPrevA msgB10.sender).replyTimes ++
          [gapMinutes msgA msgB10]) ∧
      (findSender (processMessage em0 stPrevA msgB10).senderMap
          msgB10.sender).map (fun s => s.initiatedCount) =
        some ((oldEntry stPrevA msgB10.sender).initiatedCount +
          (if (360 : ℚ) < gapMinutes msgA msgB10 then 1 else 0)) ∧
      (findSender (processMessage em0 stPrevA msgB10).senderMap
          msgA.sender).map (fun s => s.consecutiveCount) = some 0) :=
  ⟨by norm_num [gapMinutes, msgA, msgB400, msPerMinute],
    by norm_num [gapMinutes, msgA, msgB10, msPerMinute],
    rfl, by decide,
    reply_gap_classification em0 stPrevA msgB400 msgA rfl (by decide),
    reply_gap_classification em0 stPrevA msgB10 msgA rfl (by decide)⟩

theorem cascade_empty_of_strats_empty (env : DomEnv) (text : String)
    (h1 : env.strat1 text = []) (h2 : env.strat2 text = [])
    (h3 : env.strat3 text = []) : (cascade env text).1 = [] := by
  unfold cascade
  by_cases hp : env.pamNonempty text <;>
    by_cases ht : env.telegramNonempty text <;>
      simp [hp, ht, h1, h2, h3]

theorem length_sortMsgs (l : List RawMessage) :
    (sortMsgs l).length = l.length := by
  unfold sortMsgs
  exact List.length_insertionSort byTimestamp l

/-- C5: the parse rejects an empty text payload with the empty-input
error, rejects a document on which every strategy extracts nothing with
the format-not-recognized error, and every success carries at least one
message. -/
theorem parse_failure_semantics :
    (∀ (env : DomEnv) (fileName : String) (now : Nat),
      parseChatFile env "" fileName now =
        Except.error "Empty file content") ∧
    (∀ (env : DomEnv) (text fileName : String) (now : Nat),
      text ≠ "" → env.strat1 text = [] → env.strat2 text = [] →
      env.strat3 text = [] →
      parseChatFile env text fileName now =
        Except.error "No messages found or format unrecognized.") ∧
    (∀ (env : DomEnv) (text fileName : String) (now : Nat)
        (r : ChatAnalysisResult),
      parseChatFile env text fileName now = Except.ok r →
      1 ≤ r.totalMessages) := by
  refine ⟨fun env fileName now => rfl, ?_, ?_⟩
  · intro env text fileName now htext h1 h2 h3
    unfold parseChatFile
    rw [if_neg htext, cascade_empty_of_strats_empty env text h1 h2 h3]
    rfl
  · intro env text fileName now r h
    obtain ⟨-, hne, rfl⟩ := (parse_ok_iff env text fileName now r).mp h
    show 1 ≤ (sortMsgs (cascade env text).1).length
    rw [length_sortMsgs]
    cases hc : (cascade env text).1 with
    | nil => rw [hc] at hne; cases hne
    | cons a l => simp

/-- Witness of C5: the two error cases and one success case, concretely. -/
theorem parse_failure_semantics_witness :
    parseChatFile (constEnv msgs4) "" "f" 0 =
        Except.error "Empty file content" ∧
      parseChatFile (constEnv []) "x" "f" 0 =
        Except.error "No messages found or format unrecognized." ∧
      1 ≤ res4.totalMessages :=
  ⟨parse_failure_semantics.1 (constEnv msgs4) "f" 0,
    parse_failure_semantics.2.1 (constEnv []) "x" "f" 0 (by decide) rfl rfl
      rfl,
    parse_failure_semantics.2.2 (constEnv msgs4) "x" "f" 0 res4 rfl⟩

theorem timeline_eq_daily_processMessage (em : String → List String)
    (st : AnalysisState) (msg : RawMessage)
    (h : st.timelineStats = st.dailyActivity) :
    (processMessage em st msg).timelineStats =
      (processMessage em st msg).dailyActivity := by
  rw [timeline_processMessage, daily_processMessage, h]

theorem analyze_timeline_eq_daily (em : String → List String)
    (msgs : List RawMessage) :
    (analyze em msgs).timelineStats = (analyze em msgs).dailyActivity := by
  unfold analyze
  suffices hgen : ∀ st : AnalysisState,
      st.timelineStats = st.dailyActivity →
      (msgs.foldl (processMessage em) st).timelineStats =
        (msgs.foldl (processMessage em) st).dailyActivity by
    exact hgen initState rfl
  induction msgs with
  | nil => intro st h; exact h
  | cons msg rest ih =>
      intro st h
      exact ih (processMessage em st msg)
        (timeline_eq_daily_processMessage em st msg h)

theorem dayStreakStep_cases (acc : Nat × Nat × Nat) (d : Nat) :
    dayStreakStep acc d = (acc.1 + 1, acc.2.1, d) ∨
      dayStreakStep acc d = (1, max acc.2.1 acc.1, d) := by
  unfold dayStreakStep
  dsimp only
  split
  · exact Or.inl rfl
  · exact Or.inr rfl

theorem foldl_dayStreakStep_pos (rest : List Nat) :
    ∀ acc : Nat × Nat × Nat, 1 ≤ acc.1 → 1 ≤ acc.2.1 →
      1 ≤ (rest.foldl dayStreakStep acc).1 ∧
        1 ≤ (rest.foldl dayStreakStep acc).2.1 := by
  induction rest with
  | nil => intro acc h1 h2; exact ⟨h1, h2⟩
  | cons d rest ih =>
      intro acc h1 h2
      rw [List.foldl_cons]
      rcases dayStreakStep_cases acc d with hs | hs <;> rw [hs]
      · exact ih _ (Nat.le_add_left 1 acc.1) h2
      · exact ih _ (le_refl 1) (le_max_of_le_left h2)

theorem one_le_maxDayStreakOf (ds : List Nat) (h : ds ≠ []) :
    1 ≤ maxDayStreakOf ds := by
  cases ds with
  | nil => cases h rfl
  | cons d0 rest =>
      unfold maxDayStreakOf
      obtain ⟨h1, h2⟩ :=
        foldl_dayStreakStep_pos rest (1, 1, d0) (le_refl 1) (le_refl 1)
      exact le_max_of_le_right h1

theorem foldl_dayStreakStep_chain (rest : List Nat) :
    ∀ (c m d0 : Nat), List.Chain (fun a b => b = a + 1) d0 rest →
      (rest.foldl dayStreakStep (c, m, d0)).1 = c + rest.length ∧
        (rest.foldl dayStreakStep (c, m, d0)).2.1 = m := by
  induction rest with
  | nil => intro c m d0 h; exact ⟨rfl, rfl⟩
  | cons d rest ih =>
      intro c m d0 h
      rcases List.chain_cons.mp h with ⟨rfl, hrest⟩
      rw [List.foldl_cons]
      have hstep : dayStreakStep (c, m, d0) (d0 + 1) = (c + 1, m, d0 + 1) := by
        simp only [dayStreakStep]
        have hd : (((d0 + 1 : Nat) : ℤ) - ((d0 : Nat) : ℤ)).natAbs = 1 := by
          omega
        rw [hd, if_pos (by norm_num [msPerDay])]
      rw [hstep]
      obtain ⟨h1, h2⟩ := ih (c + 1) m (d0 + 1) hrest
      refine ⟨?_, h2⟩
      rw [h1]
      simp only [List.length_cons]
      omega

theorem maxDayStreakOf_of_chain (ds : List Nat)
    (h : List.Chain' (fun a b => b = a + 1) ds) :
    maxDayStreakOf ds = ds.length := by
  cases ds with
  | nil => rfl
  | cons d0 rest =>
      unfold maxDayStreakOf
      obtain ⟨h1, h2⟩ := foldl_dayStreakStep_chain rest 1 1 d0 h
      show max (rest.foldl dayStreakStep (1, 1, d0)).2.1
        (rest.foldl dayStreakStep (1, 1, d0)).1 = (d0 :: rest).length
      rw [h1, h2]
      simp only [List.length_cons]
      omega

/-- C6: on every successful parse the longest day streak is at least
one whenever at least one message exists, and it equals the count of
distinct active days when consecutive distinct active-day keys always
differ by exactly one calendar day. -/
theorem day_streak_bounds (env : DomEnv) (text fileName : String)
    (now : Nat) (r : ChatAnalysisResult)
    (h : parseChatFile env text fileName now = Except.ok r) :
    (1 ≤ r.totalMessages → 1 ≤ r.longestDayStreak) ∧
      (List.Chain' (fun a b => b = a + 1) (sortedDaysOf r.timelineStats) →
        r.longestDayStreak = r.totalDays) := by
  obtain ⟨-, -, rfl⟩ := (parse_ok_iff env text fileName now r).mp h
  constructor
  · intro hmsg
    simp only [analyzeAndAssemble] at hmsg ⊢
    apply one_le_maxDayStreakOf
    intro hnil
    have hlen := congrArg List.length hnil
    rw [List.length_nil] at hlen
    unfold sortedDaysOf at hlen
    rw [List.length_insertionSort, List.length_map] at hlen
    have hsum : sumVals
        (analyze env.emojiMatch
          (sortMsgs (cascade env text).1)).dailyActivity =
        (sortMsgs (cascade env text).1).length := by
      rw [← analyze_timeline_eq_daily]
      exact (analyze_sums _ _).2.2
    rw [List.length_eq_zero.mp hlen] at hsum
    simp only [sumVals, List.map_nil, List.sum_nil] at hsum
    omega
  · intro hch
    simp only [analyzeAndAssemble] at hch ⊢
    rw [analyze_timeline_eq_daily] at hch
    exact maxDayStreakOf_of_chain _ hch

/-- Witness of C6 at the four-message scenario. -/
theorem day_streak_bounds_witness :
    1 ≤ res4.longestDayStreak ∧ res4.longestDayStreak = res4.totalDays :=
  ⟨(day_streak_bounds (constEnv msgs4) "x" "f" 0 res4 rfl).1 (by decide),
    (day_streak_bounds (constEnv msgs4) "x" "f" 0 res4 rfl).2
      (by exact List.chain'_singleton 19723)⟩

/-- C9 amended: the parse is a pure function of the document text, the
file name and the environment, except that metadata.parsedAt records
the wall-clock instant of the call; scrubbing that one field makes two
runs at different instants literally equal. -/
theorem parse_deterministic_up_to_clock (env : DomEnv)
    (text fileName : String) (now1 now2 : Nat) :
    (parseChatFile env text fileName now1).map scrubTime =
      (parseChatFile env text fileName now2).map scrubTime := by
  unfold parseChatFile
  by_cases ht : text = ""
  · rw [if_pos ht, if_pos ht]
  · rw [if_neg ht, if_neg ht]
    by_cases hr : (cascade env text).1.isEmpty
    · rw [if_pos hr, if_pos hr]
    · rw [if_neg hr, if_neg hr]
      rfl

/-- Counterexample to C9 as stated: two runs over byte-identical text
and file name at wall-clock instants 0 and 1 disagree, because the
result embeds the parse instant in metadata.parsedAt. -/
theorem parse_time_dependence_counterexample :
    (okOr (parseChatFile (constEnv msgs4) "x" "f" 0)
        emptyResult).metadata.parsedAt = 0 ∧
      (okOr (parseChatFile (constEnv msgs4) "x" "f" 1)
        emptyResult).metadata.parsedAt = 1 ∧
      parseChatFile (constEnv msgs4) "x" "f" 0 ≠
        parseChatFile (constEnv msgs4) "x" "f" 1 := by
  refine ⟨rfl, rfl, ?_⟩
  intro h
  have h2 := congrArg
    (fun e => (okOr e emptyResult).metadata.parsedAt) h
  have h3 : (0 : Nat) = 1 := h2
  exact absurd h3 (by decide)

theorem parse_activePct_aux (env : DomEnv) (text fileName : String)
    (now : Nat) (r : ChatAnalysisResult)
    (h : parseChatFile env text fileName now = Except.ok r) :
    r.activeDaysPct =
      specActiveDaysPct r.firstMessageDate r.lastMessageDate r.totalDays := by
  obtain ⟨-, -, rfl⟩ := (parse_ok_iff env text fileName now r).mp h
  simp only [analyzeAndAssemble]
  cases hF : (sortMsgs (cascade env text).1).head? with
  | none => rfl
  | some m0 =>
      cases hL : (sortMsgs (cascade env text).1).getLast? with
      | none => rfl
      | some mL =>
          simp only [Option.map_some', specActiveDaysPct]
          by_cases hs :
            ((mL.timestamp : ℚ) - (m0.timestamp : ℚ)) / (msPerDay : ℚ) > 0
          · rw [if_pos hs, if_pos hs]
            congr 1
            ring
          · rw [if_neg hs, if_neg hs]

/-- C3 amended: on every successful parse, activeDaysPct equals the
rounded value of 100 times the distinct active days over the day span
between the stored first and last message instants, and is 0 when the
span is zero or undefined; no bound of 100 holds, and a single distinct
active day does not force the value to 0. -/
theorem activeDaysPct_matches_formula (env : DomEnv)
    (text fileName : String) (now : Nat) (r : ChatAnalysisResult)
    (h : parseChatFile env text fileName now = Except.ok r) :
    r.activeDaysPct =
      specActiveDaysPct r.firstMessageDate r.lastMessageDate r.totalDays :=
  parse_activePct_aux env text fileName now r h

/-- Witness of the amended C3 at the four-message scenario. -/
theorem activeDaysPct_matches_formula_witness :
    res4.activeDaysPct =
      specActiveDaysPct res4.firstMessageDate res4.lastMessageDate
        res4.totalDays :=
  activeDaysPct_matches_formula (constEnv msgs4) "x" "f" 0 res4 rfl

/-- The concrete result of parsing the half-day scenario. -/
def resHalf : ChatAnalysisResult :=
  okOr (parseChatFile (constEnv msgsHalfDay) "x" "f" 0) emptyResult

/-- Counterexample to C3 as stated: two messages on one calendar day
twelve hours apart give one distinct active day and a half-day span, so
activeDaysPct is 200 - above 100, and not 0 despite the single distinct
active day. -/
theorem activeDaysPct_counterexample :
    resHalf.totalDays = 1 ∧ resHalf.activeDaysPct = 200 ∧
      ¬ resHalf.activeDaysPct ≤ 100 ∧ resHalf.activeDaysPct ≠ 0 := by
  have hpct : resHalf.activeDaysPct = 200 := by
    have h := parse_activePct_aux (constEnv msgsHalfDay) "x" "f" 0 resHalf
      rfl
    rw [h]
    show specActiveDaysPct (some (mkMs day20240101 0 0))
      (some (mkMs day20240101 12 0)) 1 = 200
    simp only [specActiveDaysPct]
    rw [if_pos (by norm_num [mkMs, day20240101, msPerDay, msPerHour,
      msPerMinute])]
    norm_num [jround, mkMs, day20240101, msPerDay, msPerHour, msPerMinute]
  refine ⟨rfl, hpct, ?_, ?_⟩
  · rw [hpct]
    decide
  · rw [hpct]
    decide

theorem processMessage_em_congr (em em' : String → List String)
    (st : AnalysisState) (msg : RawMessage)
    (h : em msg.content = em' msg.content) :
    processMessage em st msg = processMessage em' st msg := by
  unfold processMessage msgBase
  simp only [h]

theorem foldl_processMessage_em_congr (em em' : String → List String)
    (msgs : List RawMessage)
    (h : ∀ m ∈ msgs, em m.content = em' m.content) :
    ∀ st : AnalysisState,
      msgs.foldl (processMessage em) st =
        msgs.foldl (processMessage em') st := by
  induction msgs with
  | nil => intro st; rfl
  | cons msg rest ih =>
      intro st
      rw [List.foldl_cons, List.foldl_cons,
        processMessage_em_congr em em' st msg
          (h msg (List.mem_cons_self _ _)),
        ih (fun m hm => h m (List.mem_cons_of_mem _ hm))]

theorem analyze_em_congr (em em' : String → List String)
    (msgs : List RawMessage)
    (h : ∀ m ∈ msgs, em m.content = em' m.content) :
    analyze em msgs = analyze em' msgs := by
  unfold analyze
  rw [foldl_processMessage_em_congr em em' msgs h]

set_option maxHeartbeats 1000000 in
/-- C2 amended: the four-message scenario (Ann at 09:00, 09:05, 09:10
and Ben at 09:20 on 2024-01-01, with empty message bodies) yields
totalMessages 4, a single hour-9 histogram bucket of 4, a single
timeline entry of 4 for 2024-01-01, Ann's longest same-sender streak 2
(the counter advances only on the second and later consecutive
messages), Ben's reply-gap list [10], Ben's initiation count 0,
longestDayStreak 1 and longestGapDays 0.  The hypothesis on the emoji
matcher states only that a regular-expression search over an empty
string yields no matches, which holds of the real extractor. -/
theorem scenario_end_to_end (env : DomEnv) (text fileName : String)
    (now : Nat) (r : ChatAnalysisResult)
    (h : parseChatFile env text fileName now = Except.ok r)
    (hc : (cascade env text).1 = msgs4)
    (hem : env.emojiMatch "" = []) :
    r.totalMessages = 4 ∧
      r.hourlyStats = [(9, 4)] ∧
      r.timelineStats = [(day20240101, 4)] ∧
      (findStat r.senders "Ann").map
        (fun s => s.longestStreakMessages) = some 2 ∧
      (findSender (analyze env.emojiMatch (sortMsgs msgs4)).senderMap
        "Ben").map (fun s => s.replyTimes) = some [(10 : ℚ)] ∧
      (findStat r.senders "Ben").map
        (fun s => s.initiatedConversations) = some 0 ∧
      r.longestDayStreak = 1 ∧
      r.longestGapDays = 0 := by
  obtain ⟨-, -, rfl⟩ := (parse_ok_iff env text fileName now r).mp h
  rw [hc]
  have hstate : analyze env.emojiMatch (sortMsgs msgs4) =
      analyze em0 (sortMsgs msgs4) := by
    apply analyze_em_congr
    intro m hm
    rw [show sortMsgs msgs4 = msgs4 from rfl] at hm
    have hcontent : m.content = "" := by
      simp only [msgs4, List.mem_cons, List.not_mem_nil, or_false] at hm
      rcases hm with rfl | rfl | rfl | rfl <;> rfl
    rw [hcontent, hem]
    rfl
  simp only [analyzeAndAssemble, hstate]
  refine ⟨rfl, rfl, rfl, rfl, ?_, ?_, rfl, rfl⟩
  · rw [show (findSender
        (analyze em0 (sortMsgs msgs4)).senderMap "Ben").map
          (fun s => s.replyTimes) =
        some [((mkMs day20240101 9 20 : ℚ) -
          ((mkMs day20240101 9 10 : Nat) : ℚ)) /
          ((msPerMinute : Nat) : ℚ)] from rfl]
    norm_num [mkMs, day20240101, msPerDay, msPerHour, msPerMinute]
  · rw [show (findStat
        (assembleSenders (analyze em0 (sortMsgs msgs4)).senderMap)
          "Ben").map (fun s => s.initiatedConversations) =
        some (0 + if (360 : ℚ) < ((mkMs day20240101 9 20 : ℚ) -
          ((mkMs day20240101 9 10 : Nat) : ℚ)) /
          ((msPerMinute : Nat) : ℚ) then 1 else 0) from rfl]
    rw [if_neg (by norm_num [mkMs, day20240101, msPerDay, msPerHour,
      msPerMinute])]

set_option maxHeartbeats 1000000 in
/-- Witness of the amended C2 at the concrete environment whose
class-anchored strategy extracts exactly the four scenario messages. -/
theorem scenario_end_to_end_witness :
    res4.totalMessages = 4 ∧
      res4.hourlyStats = [(9, 4)] ∧
      res4.timelineStats = [(day20240101, 4)] ∧
      (findStat res4.senders "Ann").map
        (fun s => s.longestStreakMessages) = some 2 ∧
      (findSender (analyze (constEnv msgs4).emojiMatch
        (sortMsgs msgs4)).senderMap "Ben").map
          (fun s => s.replyTimes) = some [(10 : ℚ)] ∧
      (findStat res4.senders "Ben").map
        (fun s => s.initiatedConversations) = some 0 ∧
      res4.longestDayStreak = 1 ∧
      res4.longestGapDays = 0 :=
  scenario_end_to_end (constEnv msgs4) "x" "f" 0 res4 rfl rfl rfl

set_option maxHeartbeats 1000000 in
/-- Counterexample to C2 as stated: on the very scenario of the claim
the parse succeeds and reports Ann's longestStreakMessages as 2, not 3,
because three consecutive messages advance the consecutive counter only
twice. -/
theorem scenario_streak_counterexample :
    parseChatFile (constEnv msgs4) "x" "f" 0 = Except.ok res4 ∧
      (findStat res4.senders "Ann").map
        (fun s => s.longestStreakMessages) = some 2 ∧
      (findStat res4.senders "Ann").map
        (fun s => s.longestStreakMessages) ≠ some 3 := by
  refine ⟨rfl, rfl, ?_⟩
  intro h
  have h2 : some (2 : Nat) = some 3 := h
  exact absurd h2 (by decide)

/-- The rejection predicate of the sender-name validator, worded as the
amended specification: every check is applied to the trimmed string;
rejection means the trimmed string is empty or longer than 80
characters, begins with a clock time, is a bare meridiem marker, begins
with a month-name or slash-delimited date, is one of the fixed labels
lower-cased, or contains the attachment phrase lower-cased (the
untrimmed empty string is also rejected). -/
def specSenderReject (text : String) : Prop :=
  text = "" ∨ jsTrim text = "" ∨ 80 < (jsTrim text).length ∨
    clockStart (jsTrim text).toList = true ∨
    meridiemOnly (jsTrim text) = true ∨
    longDateStart (jsTrim text).toList = true ∨
    slashDateStart (jsTrim text).toList = true ∨
    commonLabels.contains (jsToLower (jsTrim text)) = true ∨
    hasSub "sent an attachment".toList
      (jsToLower (jsTrim text)).toList = true

/-- C7 amended: the validator accepts a string exactly when none of the
trimmed-string rejection conditions holds. -/
theorem sender_validator_characterization (text : String) :
    isValidSender text = true ↔ ¬ specSenderReject text := by
  unfold isValidSender specSenderReject
  by_cases h0 : text = ""
  · simp [h0]
  · simp only [if_neg h0]
    have hlen : ((jsTrim text).length = 0) ↔ (jsTrim text = "") := by
      constructor
      · intro h
        cases hs : jsTrim text with
        | mk l =>
            rw [hs] at h
            cases l with
            | nil => rfl
            | cons a as => simp [String.length] at h
      · intro h
        rw [h]
        rfl
    split_ifs with h1 h2 h3 h4 h5 h6 h7 <;> simp_all [hlen, not_or]
    intro hne hle hc hm hld hsd hlab
    rcases h1 with h | h
    · exact absurd h hne
    · omega

/-- A string of length 102 whose trimmed core is the two letters ab. -/
def pad102 : String := String.mk ('a' :: 'b' :: List.replicate 100 ' ')

/-- Counterexample to C7 as stated: the validator trims before every
check, so a 102-character string padded with spaces is accepted even
though it is overlong for any cap in the 50-80 range, and the non-empty
string of a single space is rejected even though it falls under none of
the claimed rejection categories. -/
theorem sender_validator_counterexample :
    pad102.length = 102 ∧ isValidSender pad102 = true ∧
      " " ≠ "" ∧ isValidSender " " = false := by
  refine ⟨by decide, by decide, by decide, by decide⟩

theorem mapWithIdx_get_color :
    ∀ (l : List TempSenderStat) (k i : Nat)
      (hi : i < (mapWithIdx toSenderStat k l).length),
      ((mapWithIdx toSenderStat k l).get ⟨i, hi⟩).color = colorAt (k + i) := by
  intro l
  induction l with
  | nil =>
      intro k i hi
      cases hi
  | cons s rest ih =>
      intro k i hi
      cases i with
      | zero => rfl
      | succ j =>
          have hj : j < (mapWithIdx toSenderStat (k + 1) rest).length := by
            simpa [mapWithIdx] using Nat.lt_of_succ_lt_succ hi
          have := ih (k + 1) j hj
          simpa [mapWithIdx, Nat.add_assoc, Nat.add_comm, Nat.add_left_comm]
            using this

/-- C8 amended: the sender list is the stable descending-by-count sort
of the first-seen sender snapshots, and the display color of each
snapshot is the palette entry of its first-seen position - not of its
rank: colors are assigned before the sort. -/
theorem sender_order_and_colors (env : DomEnv) (text fileName : String)
    (now : Nat) (r : ChatAnalysisResult)
    (h : parseChatFile env text fileName now = Except.ok r) :
    List.Pairwise byCountDesc r.senders ∧
      List.Perm r.senders
        (mapWithIdx toSenderStat 0
          (analyze env.emojiMatch
            (sortMsgs (cascade env text).1)).senderMap) ∧
      (∀ (i : Nat) (hi : i < (mapWithIdx toSenderStat 0
          (analyze env.emojiMatch
            (sortMsgs (cascade env text).1)).senderMap).length),
        ((mapWithIdx toSenderStat 0
          (analyze env.emojiMatch
            (sortMsgs (cascade env text).1)).senderMap).get
              ⟨i, hi⟩).color = colorAt i) ∧
      (∀ x y : SenderStat, byCountDesc x y →
        List.Sublist [x, y]
          (mapWithIdx toSenderStat 0
            (analyze env.emojiMatch
              (sortMsgs (cascade env text).1)).senderMap) →
        List.Sublist [x, y] r.senders) := by
  obtain ⟨-, -, rfl⟩ := (parse_ok_iff env text fileName now r).mp h
  simp only [analyzeAndAssemble, assembleSenders]
  refine ⟨?_, ?_, ?_, ?_⟩
  · exact List.sorted_insertionSort byCountDesc _
  · exact List.perm_insertionSort byCountDesc _
  · intro i hi
    simpa using mapWithIdx_get_color _ 0 i hi
  · intro x y hxy hsub
    exact List.sublist_insertionSort (List.pairwise_pair.mpr hxy) hsub

/-- Witness of the amended C8 at the four-message scenario. -/
theorem sender_order_and_colors_witness :
    List.Pairwise byCountDesc res4.senders ∧
      List.Perm res4.senders
        (mapWithIdx toSenderStat 0
          (analyze (constEnv msgs4).emojiMatch
            (sortMsgs (cascade (constEnv msgs4) "x").1)).senderMap) :=
  ⟨(sender_order_and_colors (constEnv msgs4) "x" "f" 0 res4 rfl).1,
    (sender_order_and_colors (constEnv msgs4) "x" "f" 0 res4 rfl).2.1⟩

/-- The concrete result of parsing the rank scenario: the first-seen
sender Al has one message, the second-seen sender Bo has two. -/
def resRank : ChatAnalysisResult :=
  okOr (parseChatFile (constEnv msgsRank) "x" "f" 0) emptyResult

/-- Counterexample to C8 as stated: ranked first by count, Bo carries
the second palette entry (from first-seen position 1), not the first
palette entry its rank position would select. -/
theorem sender_color_counterexample :
    resRank.senders.map (fun s => (s.name, s.count, s.color)) =
        [("Bo", 2, "#EC4899"), ("Al", 1, "#4F46E5")] ∧
      colorAt 0 = "#4F46E5" ∧
      (resRank.senders.map (fun s => s.color)).head? ≠ some (colorAt 0) := by
  refine ⟨by decide, by decide, by decide⟩
